import Mathlib

/-!
A shallow embedding of the blink-tracking loop of this repository
(src/main.py, the pointer/keyboard variant, and src/xbox.py, the gamepad
variant).  Machine floats are modelled by exact rationals (and, for the
euclidean distances of the eye-aspect-ratio computation, by reals).  The
eye-aspect-ratio computation runs on numpy float64 scalars in the source,
so its division by a zero distance does not raise: it emits a
RuntimeWarning and yields +infinity (NaN for 0/0) and execution
continues; `calculate_ear`'s value domain `FVal` has the corresponding
finite / infinite / NaN cases.
Camera frames, the dlib face detector and the landmark predictor are
external collaborators: one loop iteration receives, for each detected
face, the per-face averaged eye ratio `avg_ear` together with the clock
value read at that face's state-machine update, plus the sampled input
device state.
-/

namespace Trackers

/-- Configuration constants, src/main.py lines 17-19 (identical values in
src/xbox.py lines 13-15): `EAR_THRESHOLD`, `SMOOTHING_WINDOW`,
`MIN_CLOSE_DURATION`. -/
structure Config where
  earThreshold : ℚ
  smoothingWindow : ℕ
  minCloseDuration : ℚ

/-- The default constants of both variants: threshold 0.25, window 5,
minimum close duration 0.10 s. -/
def defaultConfig : Config :=
  { earThreshold := 25/100, smoothingWindow := 5, minCloseDuration := 10/100 }

/-- The mutable blink-detector state of src/main.py lines 25-27:
`blink_state` (0 = open, 1 = closed, as in the source comment),
`close_start_time` (`None` or the clock value when the eyes closed) and
the cumulative `blink_count`. -/
structure BlinkSt where
  blink_state : ℕ
  close_start_time : Option ℚ
  blink_count : ℕ
deriving DecidableEq

/-- Initial detector state (src/main.py lines 25-27): open, no close start,
count 0. -/
def initBlink : BlinkSt :=
  { blink_state := 0, close_start_time := none, blink_count := 0 }

/-- One update of the rise-and-fall logic, src/main.py lines 102-115
(identical in src/xbox.py lines 82-91), fed the smoothed ratio `s` and the
clock value `now` that `time.time()` returns inside the taken branch. -/
def blinkStep (cfg : Config) (st : BlinkSt) (s : ℚ) (now : ℚ) : BlinkSt :=
  if s < cfg.earThreshold ∧ st.blink_state = 0 then
    { st with blink_state := 1, close_start_time := some now }
  else if cfg.earThreshold < s ∧ st.blink_state = 1 then
    { blink_state := 0,
      close_start_time := none,
      blink_count :=
        match st.close_start_time with
        | some t0 =>
          if cfg.minCloseDuration ≤ now - t0 then st.blink_count + 1
          else st.blink_count
        | none => st.blink_count }
  else st

/-- Feeding a sequence of (smoothed ratio, clock) samples through the
detector, one `blinkStep` per sample. -/
def blinkRun (cfg : Config) (st : BlinkSt) : List (ℚ × ℚ) → BlinkSt
  | [] => st
  | (s, now) :: rest => blinkRun cfg (blinkStep cfg st s now) rest

/-- A detector state is reachable when some sample sequence leads to it
from the initial state. -/
def BlinkReachable (cfg : Config) (st : BlinkSt) : Prop :=
  ∃ tr : List (ℚ × ℚ), blinkRun cfg initBlink tr = st

/-- `ear_buffer.append a` on `deque(maxlen := W)` (src/main.py line 30 and
line 96): the new sample goes to the right, the oldest element is evicted
from the left once the buffer holds `W` samples. -/
def dequePush (W : ℕ) (buf : List ℚ) (a : ℚ) : List ℚ :=
  let b := buf ++ [a]
  b.drop (b.length - W)

/-- `sum(ear_buffer) / len(ear_buffer)` (src/main.py line 97). -/
def bufferMean (buf : List ℚ) : ℚ :=
  buf.sum / (buf.length : ℚ)

/-- Inserting a whole sample list into an initially empty buffer. -/
def insertAll (W : ℕ) (as : List ℚ) : List ℚ :=
  as.foldl (dequePush W) []

/-- The per-face mutable state of one tracker run: the blink detector
state plus the rolling `ear_buffer`. -/
structure FrameState where
  blink : BlinkSt
  ear_buffer : List ℚ
deriving DecidableEq

/-- Initial frame-loop state: open eyes, zero count, empty buffer. -/
def initFrame : FrameState :=
  { blink := initBlink, ear_buffer := [] }

/-- Processing one detected face given its averaged ratio (src/main.py
lines 96-115): append the ratio to the buffer, recompute the rolling
mean, update the blink state machine.  The drawing calls of lines 118-121
touch no tracker state and are omitted. -/
def faceStep (cfg : Config) (fs : FrameState) (avg_ear : ℚ) (now : ℚ) : FrameState :=
  let buf := dequePush cfg.smoothingWindow fs.ear_buffer avg_ear
  { blink := blinkStep cfg fs.blink (bufferMean buf) now, ear_buffer := buf }

/-- The key map of src/main.py lines 37-53, in source (insertion) order;
the win32con virtual-key constants are written out (VK_SHIFT = 0x10,
VK_CONTROL = 0x11, VK_MENU = 0x12, VK_SPACE = 0x20, VK_ESCAPE = 0x1B). -/
def key_map : List (ℕ × String) :=
  [(0x57, "W"), (0x41, "A"), (0x53, "S"), (0x44, "D"), (0x52, "R"), (0x43, "C"),
   (0x10, "Shift"), (0x11, "Ctrl"), (0x12, "Alt"), (0x20, "Space"), (0x1B, "Esc"),
   (0x31, "1"), (0x32, "2"), (0x33, "3"), (0x34, "4")]

/-- The action evaluation of src/main.py lines 126-139: left click, else
right click, else scan `key_map` in order, overwriting `action` at every
pressed key (the loop has no break), else "None".  `keyDown vk` models
`win32api.GetKeyState(vk) < 0`. -/
def sampleActionKb (lbutton rbutton : Bool) (keyDown : ℕ → Bool) : String :=
  if lbutton then "Left Click"
  else if rbutton then "Right Click"
  else key_map.foldl (fun action p => if keyDown p.1 then p.2 else action) "None"

/-- The action label as section 4.4 of the spec words it: left click,
else right click, else the label of the FIRST matching key in the fixed
enumeration order of the configured key set, else "None".  Written from
the spec only, to be compared with `sampleActionKb`. -/
def sampleActionKbSpec (lbutton rbutton : Bool) (keyDown : ℕ → Bool) : String :=
  if lbutton then "Left Click"
  else if rbutton then "Right Click"
  else
    match key_map.find? (fun p => keyDown p.1) with
    | some p => p.2
    | none => "None"

/-- The label of the last pressed key in `key_map` order, else "None":
what the break-less scan of src/main.py lines 137-139 actually returns. -/
def lastMatchLabel (keyDown : ℕ → Bool) : String :=
  ((key_map.reverse.find? (fun p => keyDown p.1)).map Prod.snd).getD "None"

/-- The external inputs one pointer/keyboard iteration consumes: the
per-face averaged ratios with the clock value at each face's update, the
formatted timestamp, the cursor position, and the mouse/key state. -/
structure KbInput where
  faces : List (ℚ × ℚ)
  timestamp : String
  coords : ℤ × ℤ
  lbutton : Bool
  rbutton : Bool
  keyDown : ℕ → Bool

/-- One log record of the pointer/keyboard variant (src/main.py line 142):
timestamp, cursor position, action label, blink-count snapshot. -/
structure KbRecord where
  timestamp : String
  coords : ℤ × ℤ
  action : String
  blink_count : ℕ

/-- One full iteration of the src/main.py loop body (lines 83-143): fold
the per-face update over every detected face, sample the action, and
build the log record from the current blink count. -/
def frameIterKb (cfg : Config) (fs : FrameState) (inp : KbInput) : FrameState × KbRecord :=
  let fs2 := inp.faces.foldl (fun s p => faceStep cfg s p.1 p.2) fs
  let action := sampleActionKb inp.lbutton inp.rbutton inp.keyDown
  (fs2, { timestamp := inp.timestamp, coords := inp.coords, action := action,
          blink_count := fs2.blink.blink_count })

/-- Running the loop over a sequence of iteration inputs, collecting the
final state and the appended log records in order. -/
def runKb (cfg : Config) (fs : FrameState) : List KbInput → FrameState × List KbRecord
  | [] => (fs, [])
  | inp :: rest =>
    let step := frameIterKb cfg fs inp
    let tail := runKb cfg step.1 rest
    (tail.1, step.2 :: tail.2)

/-- The controller button map of src/xbox.py lines 25-36, in source
order. -/
def controller_map : List (ℕ × String) :=
  [(0, "A"), (1, "B"), (2, "X"), (3, "Y"), (8, "LB"), (9, "RB"),
   (10, "LT"), (11, "RT"), (12, "L3"), (13, "R3")]

/-- The gamepad action scan of src/xbox.py lines 119-123: walk
`controller_map` in order and return the first held button's label (the
loop breaks on the first hit), else "None". -/
def sampleActionXbox (buttonDown : ℕ → Bool) : String :=
  match controller_map.find? (fun p => buttonDown p.1) with
  | some p => p.2
  | none => "None"

/-- Floor of a non-negative rational, written on the normalised
numerator/denominator pair so that it evaluates by kernel reduction. -/
def natFloorQ (q : ℚ) : ℕ :=
  q.num.toNat / q.den

/-- Rounding a non-negative rational to the nearest natural, ties to
even: the rounding Python's fixed-point formatting performs on the
magnitude of the value. -/
def roundHalfEvenNat (q : ℚ) : ℕ :=
  let f := natFloorQ q
  let frac := q - (f : ℚ)
  if frac < 1/2 then f
  else if 1/2 < frac then f + 1
  else if f % 2 = 0 then f else f + 1

/-- Python's fixed-point format `f"{q:.2f}"`, modelled on the exact
rational value: sign, then the magnitude rounded (half to even) to two
decimal digits, the fractional part zero-padded to width 2. -/
def format2 (q : ℚ) : String :=
  let sign := if q < 0 then "-" else ""
  let n := roundHalfEvenNat (|q| * 100)
  sign ++ toString (n / 100) ++ "." ++ (if n % 100 < 10 then "0" else "") ++ toString (n % 100)

/-- The gamepad log line of src/xbox.py lines 127-132: timestamp, the two
stick-axis pairs at two decimal places, the action label and the blink
count, newline-terminated. -/
def logLineXbox (timestamp : String) (l3_x l3_y r3_x r3_y : ℚ)
    (action : String) (blink_count : ℕ) : String :=
  timestamp ++ " - " ++
  "(" ++ format2 l3_x ++ ", " ++ format2 l3_y ++ ") - " ++
  "(" ++ format2 r3_x ++ ", " ++ format2 r3_y ++ ") - " ++
  action ++ " - " ++ toString blink_count ++ "\n"

/-- The external inputs one gamepad iteration consumes: per-face ratios
with clock values, the formatted timestamp, the four stick axes, and the
button state. -/
structure XboxInput where
  faces : List (ℚ × ℚ)
  timestamp : String
  l3_x : ℚ
  l3_y : ℚ
  r3_x : ℚ
  r3_y : ℚ
  buttonDown : ℕ → Bool

/-- One full iteration of the src/xbox.py loop body (lines 61-136): the
per-face updates, the button scan, and the formatted log line. -/
def frameIterXbox (cfg : Config) (fs : FrameState) (inp : XboxInput) : FrameState × String :=
  let fs2 := inp.faces.foldl (fun s p => faceStep cfg s p.1 p.2) fs
  let action := sampleActionXbox inp.buttonDown
  (fs2, logLineXbox inp.timestamp inp.l3_x inp.l3_y inp.r3_x inp.r3_y action
          fs2.blink.blink_count)

/-- Running the gamepad loop over a sequence of iteration inputs. -/
def runXbox (cfg : Config) (fs : FrameState) : List XboxInput → FrameState × List String
  | [] => (fs, [])
  | inp :: rest =>
    let step := frameIterXbox cfg fs inp
    let tail := runXbox cfg step.1 rest
    (tail.1, step.2 :: tail.2)

/-- Outcome of one call of the gamepad variant's `track_actions`
(src/xbox.py lines 45-148): either the immediate return of lines 51-53
when no controller is connected (nothing captured, nothing logged), or
the list of log lines the loop appended. -/
inductive XboxRun where
  | initFailure : XboxRun
  | completed : List String → XboxRun
deriving DecidableEq

/-- The log lines a run produced: none at all on an initialization
failure. -/
def xboxRecords : XboxRun → List String
  | XboxRun.initFailure => []
  | XboxRun.completed rs => rs

/-- `track_actions` of src/xbox.py: if `pygame.joystick.get_count() == 0`
the function prints a message and returns before the capture device is
opened (lines 51-53); otherwise the frame loop runs. -/
def track_actions_xbox (cfg : Config) (joystickCount : ℕ)
    (frames : List XboxInput) : XboxRun :=
  if joystickCount = 0 then XboxRun.initFailure
  else XboxRun.completed (runXbox cfg initFrame frames).2

/-- Squared euclidean distance of two planar points with rational
coordinates. -/
def sqdist (p q : ℚ × ℚ) : ℚ :=
  (p.1 - q.1) ^ 2 + (p.2 - q.2) ^ 2

/-- `scipy.spatial.distance.euclidean` on two planar points. -/
noncomputable def euclidean (p q : ℚ × ℚ) : ℝ :=
  Real.sqrt ((sqdist p q : ℚ) : ℝ)

/-- One 6-point eye outline as src/main.py lines 87-88 build it: the six
landmark points, in predictor order. -/
structure Eye where
  p0 : ℚ × ℚ
  p1 : ℚ × ℚ
  p2 : ℚ × ℚ
  p3 : ℚ × ℚ
  p4 : ℚ × ℚ
  p5 : ℚ × ℚ

/-- The value of one numpy float64 quantity of the ratio stage: a finite
value (kept exact as a real), +infinity, or NaN.  Negative infinity
cannot arise here, every distance being non-negative. -/
inductive FVal where
  | fin : ℝ → FVal
  | inf : FVal
  | nan : FVal

/-- `calculate_ear` of src/main.py lines 55-64 (identical in src/xbox.py
lines 38-43): `(A + B) / (2.0 * C)` with `A = dist(eye[1], eye[5])`,
`B = dist(eye[2], eye[4])`, `C = dist(eye[0], eye[3])`.  The source has
no guard, and the operands are numpy float64 scalars, so when `C = 0`
(exactly when `sqdist p0 p3 = 0`) the division does not raise: it yields
+infinity when the numerator `A + B` is positive and NaN for `0.0/0.0`
(both with a RuntimeWarning), and execution continues. -/
noncomputable def calculate_ear (eye : Eye) : FVal :=
  if sqdist eye.p0 eye.p3 = 0 then
    if sqdist eye.p1 eye.p5 = 0 ∧ sqdist eye.p2 eye.p4 = 0 then FVal.nan
    else FVal.inf
  else
    FVal.fin ((euclidean eye.p1 eye.p5 + euclidean eye.p2 eye.p4) /
              (2 * euclidean eye.p0 eye.p3))

/-- IEEE addition-then-halving `(l + r) / 2.0` restricted to the
non-negative values that occur here: NaN absorbs everything, otherwise
an infinite operand gives infinity, otherwise the exact finite mean. -/
noncomputable def fvalAvg : FVal → FVal → FVal
  | FVal.nan, _ => FVal.nan
  | _, FVal.nan => FVal.nan
  | FVal.inf, _ => FVal.inf
  | _, FVal.inf => FVal.inf
  | FVal.fin l, FVal.fin r => FVal.fin ((l + r) / 2)

/-- The per-face ratio stage of one iteration, src/main.py lines 91-93:
both eyes' EARs and their average.  Nothing tests for a non-finite
value, so a degenerate eye's infinity (or NaN) is averaged straight into
`avg_ear` and flows on into the buffer and state machine; the iteration
continues normally. -/
noncomputable def face_avg_ear (left_eye right_eye : Eye) : FVal :=
  fvalAvg (calculate_ear left_eye) (calculate_ear right_eye)

/-! ## Shared lemmas -/

/-- A fold that overwrites its accumulator at every list entry satisfying
the test returns the last satisfying entry's label (the first of the
reversed list), else the initial accumulator. -/
lemma foldl_overwrite (keyDown : ℕ → Bool) (l : List (ℕ × String)) :
    ∀ init : String,
      l.foldl (fun action p => if keyDown p.1 then p.2 else action) init =
        ((l.reverse.find? (fun p => keyDown p.1)).map Prod.snd).getD init := by
  induction l with
  | nil => intro init; rfl
  | cons x xs ih =>
    intro init
    rw [List.foldl_cons, ih, List.reverse_cons, List.find?_append]
    cases h : xs.reverse.find? (fun p => keyDown p.1) with
    | some p => simp [Option.or]
    | none =>
      cases hk : keyDown x.1 <;> simp [Option.or, List.find?, hk]

/-- One blink update never decreases the count. -/
lemma blinkStep_count_le (cfg : Config) (st : BlinkSt) (s now : ℚ) :
    st.blink_count ≤ (blinkStep cfg st s now).blink_count := by
  rcases st with ⟨bs, _ | t0, bc⟩ <;>
    · unfold blinkStep
      split_ifs <;> dsimp <;> (try split_ifs) <;> omega

/-- One blink update increases the count by at most one. -/
lemma blinkStep_count_le_succ (cfg : Config) (st : BlinkSt) (s now : ℚ) :
    (blinkStep cfg st s now).blink_count ≤ st.blink_count + 1 := by
  rcases st with ⟨bs, _ | t0, bc⟩ <;>
    · unfold blinkStep
      split_ifs <;> dsimp <;> (try split_ifs) <;> omega

/-- A blink update changes the count only in the closed-to-open branch,
and then by exactly one. -/
lemma blinkStep_count_change (cfg : Config) (st : BlinkSt) (s now : ℚ)
    (h : (blinkStep cfg st s now).blink_count ≠ st.blink_count) :
    st.blink_state = 1 ∧ cfg.earThreshold < s ∧
      (blinkStep cfg st s now).blink_state = 0 ∧
      (blinkStep cfg st s now).blink_count = st.blink_count + 1 := by
  rcases st with ⟨bs, cst, bc⟩
  unfold blinkStep at h ⊢
  split_ifs at h ⊢ with h1 h2
  · exact absurd rfl h
  · rcases cst with _ | t0
    · exact absurd rfl h
    · refine ⟨h2.2, h2.1, rfl, ?_⟩
      dsimp at h ⊢
      split_ifs at h ⊢ with h3
      · rfl
      · exact absurd rfl h
  · exact absurd rfl h

/-- The invariant justifying the source's `close_start_time is not None`
test: whenever the eyes are recorded closed, a close start time is
present. -/
def BlinkInv (st : BlinkSt) : Prop :=
  st.blink_state = 1 → st.close_start_time ≠ none

lemma blinkInv_init : BlinkInv initBlink := by
  intro h
  simp [initBlink] at h

lemma blinkInv_step (cfg : Config) (st : BlinkSt) (s now : ℚ)
    (h : BlinkInv st) : BlinkInv (blinkStep cfg st s now) := by
  unfold BlinkInv blinkStep at *
  split_ifs with h1 h2
  · intro _; simp
  · intro hbs; simp at hbs
  · exact h

lemma blinkInv_run (cfg : Config) :
    ∀ (tr : List (ℚ × ℚ)) (st : BlinkSt), BlinkInv st → BlinkInv (blinkRun cfg st tr)
  | [], _, h => h
  | (s, now) :: rest, st, h =>
    blinkInv_run cfg rest (blinkStep cfg st s now) (blinkInv_step cfg st s now h)

lemma reachable_inv (cfg : Config) (st : BlinkSt)
    (h : BlinkReachable cfg st) : BlinkInv st := by
  obtain ⟨tr, rfl⟩ := h
  exact blinkInv_run cfg tr initBlink blinkInv_init

/-! ## C1 -/

/-- C1 counterexample: with no mouse button down and exactly the keys W
(0x57) and A (0x41) held, src/main.py's break-less scan returns "A", the
label of the LAST matching entry of `key_map`, while the claimed
first-match rule returns "W". -/
theorem action_first_match_counterexample :
    sampleActionKb false false (fun vk => vk == 0x57 || vk == 0x41) = "A" ∧
    sampleActionKbSpec false false (fun vk => vk == 0x57 || vk == 0x41) = "W" ∧
    ("A" : String) ≠ "W" := by
  refine ⟨by decide, by decide, by decide⟩

/-- C1 amended: the action label is decided with fixed priority — left
click, else right click, else the label of the LAST (not first) matching
key in the enumeration order of `key_map`, else "None"; exactly one label
results for every combination of pressed buttons and keys. -/
theorem action_priority (lb rb : Bool) (keyDown : ℕ → Bool) :
    (lb = true → sampleActionKb lb rb keyDown = "Left Click") ∧
    (lb = false → rb = true → sampleActionKb lb rb keyDown = "Right Click") ∧
    (lb = false → rb = false →
      sampleActionKb lb rb keyDown = lastMatchLabel keyDown) ∧
    (lb = false → rb = false → (∀ p ∈ key_map, keyDown p.1 = false) →
      sampleActionKb lb rb keyDown = "None") := by
  refine ⟨?_, ?_, ?_, ?_⟩
  · intro h; simp [sampleActionKb, h]
  · intro h1 h2; simp [sampleActionKb, h1, h2]
  · intro h1 h2
    simp only [sampleActionKb, h1, h2, Bool.false_eq_true, if_false]
    exact foldl_overwrite keyDown key_map "None"
  · intro h1 h2 h3
    simp only [sampleActionKb, h1, h2, Bool.false_eq_true, if_false]
    rw [foldl_overwrite keyDown key_map "None", List.find?_eq_none.mpr]
    · rfl
    · intro p hp
      simp [h3 p (List.mem_reverse.mp hp)]

/-- C1 witness: the amended rule evaluated with W and A held (label "A",
the last match), and with the left button down together with held keys
(label "Left Click"). -/
theorem action_priority_witness :
    sampleActionKb false false (fun vk => vk == 0x57 || vk == 0x41) =
      lastMatchLabel (fun vk => vk == 0x57 || vk == 0x41) ∧
    sampleActionKb true false (fun vk => vk == 0x57 || vk == 0x41) = "Left Click" ∧
    sampleActionKb false false (fun _ => false) = "None" := by
  refine ⟨(action_priority false false _).2.2.1 rfl rfl,
    (action_priority true false _).1 rfl,
    (action_priority false false _).2.2.2 rfl rfl (by decide)⟩

/-! ## C4 -/

/-- C4: the detector starts open; from the open state it closes exactly
when the smoothed ratio is strictly below the threshold (recording the
close start time); from the closed state it opens exactly when the ratio
is strictly above; a ratio equal to the threshold changes nothing. -/
theorem hysteresis_transitions (cfg : Config) (st : BlinkSt) (s now : ℚ) :
    initBlink.blink_state = 0 ∧
    (st.blink_state = 0 →
      ((blinkStep cfg st s now).blink_state = 1 ↔ s < cfg.earThreshold)) ∧
    (st.blink_state = 0 → s < cfg.earThreshold →
      (blinkStep cfg st s now).close_start_time = some now) ∧
    (st.blink_state = 1 →
      ((blinkStep cfg st s now).blink_state = 0 ↔ cfg.earThreshold < s)) ∧
    (s = cfg.earThreshold → blinkStep cfg st s now = st) := by
  refine ⟨rfl, ?_, ?_, ?_, ?_⟩
  · intro h0
    unfold blinkStep
    split_ifs with h1 h2
    · simp [h1.1]
    · omega
    · have hns : ¬ s < cfg.earThreshold := fun hs => h1 ⟨hs, h0⟩
      simp [h0, hns]
  · intro h0 hs
    unfold blinkStep
    rw [if_pos ⟨hs, h0⟩]
  · intro h1
    unfold blinkStep
    split_ifs with hc1 hc2
    · omega
    · simp [hc2.1]
    · have hns : ¬ cfg.earThreshold < s := fun hs => hc2 ⟨hs, h1⟩
      simp [h1, hns]
  · intro he
    unfold blinkStep
    rw [if_neg, if_neg]
    · rintro ⟨hlt, -⟩; exact absurd he (ne_of_gt hlt)
    · rintro ⟨hlt, -⟩; exact absurd he (ne_of_lt hlt)

/-- C4 witness: at the default threshold 0.25, a ratio 0.2 closes the
open detector and records the time, and a ratio exactly 0.25 leaves a
closed state untouched. -/
theorem hysteresis_transitions_witness :
    (blinkStep defaultConfig initBlink (1/5) 2).blink_state = 1 ∧
    (blinkStep defaultConfig initBlink (1/5) 2).close_start_time = some 2 ∧
    blinkStep defaultConfig
        { blink_state := 1, close_start_time := some 0, blink_count := 0 }
        (25/100) 3 =
      { blink_state := 1, close_start_time := some 0, blink_count := 0 } := by
  refine ⟨(hysteresis_transitions defaultConfig initBlink (1/5) 2).2.1 rfl |>.mpr
      (by with_unfolding_all decide),
    (hysteresis_transitions defaultConfig initBlink (1/5) 2).2.2.1 rfl
      (by with_unfolding_all decide),
    (hysteresis_transitions defaultConfig
        { blink_state := 1, close_start_time := some 0, blink_count := 0 }
        (25/100) 3).2.2.2.2 (by with_unfolding_all decide)⟩

/-! ## C3 -/

/-- C3: on every closed-to-open transition from a reachable state, a
close start time `t0` is present, the detector opens, and the count is
incremented by exactly one precisely when the elapsed closed duration
`now - t0` reaches `MIN_CLOSE_DURATION`: a shorter dip leaves the count
unchanged, and with `MIN_CLOSE_DURATION = 0` every completed dip
counts. -/
theorem closed_open_increment (cfg : Config) (st : BlinkSt) (s now : ℚ)
    (hreach : BlinkReachable cfg st) (hclosed : st.blink_state = 1)
    (hs : cfg.earThreshold < s) :
    ∃ t0 : ℚ, st.close_start_time = some t0 ∧
      (blinkStep cfg st s now).blink_state = 0 ∧
      ((blinkStep cfg st s now).blink_count = st.blink_count + 1 ↔
        cfg.minCloseDuration ≤ now - t0) ∧
      (now - t0 < cfg.minCloseDuration →
        (blinkStep cfg st s now).blink_count = st.blink_count) ∧
      (cfg.minCloseDuration = 0 → t0 ≤ now →
        (blinkStep cfg st s now).blink_count = st.blink_count + 1) := by
  obtain ⟨t0, ht0⟩ : ∃ t0, st.close_start_time = some t0 := by
    cases h : st.close_start_time with
    | none => exact absurd h (reachable_inv cfg st hreach hclosed)
    | some t => exact ⟨t, rfl⟩
  have hcond1 : ¬ (s < cfg.earThreshold ∧ st.blink_state = 0) := by
    rintro ⟨-, h0⟩; omega
  have hcond2 : cfg.earThreshold < s ∧ st.blink_state = 1 := ⟨hs, hclosed⟩
  refine ⟨t0, ht0, ?_, ?_, ?_, ?_⟩ <;>
    simp only [blinkStep, if_neg hcond1, if_pos hcond2, ht0]
  · split_ifs with h
    · simp [h]
    · exact ⟨fun hh => absurd hh (by omega), fun hh => absurd hh h⟩
  · intro hlt
    rw [if_neg (not_le.mpr hlt)]
  · intro hzero hle
    rw [if_pos]
    rw [hzero]
    exact sub_nonneg.mpr hle

/-- C3 witness: from the reachable closed state entered at time 1 by a
ratio 0.2, a ratio 0.3 at time 1.2 (closed for 0.2 s at the default
0.1 s gate) opens the detector and increments the count. -/
theorem closed_open_increment_witness :
    ∃ t0 : ℚ,
      (blinkRun defaultConfig initBlink [(1/5, 1)]).close_start_time = some t0 ∧
      (blinkStep defaultConfig (blinkRun defaultConfig initBlink [(1/5, 1)])
        (3/10) (6/5)).blink_state = 0 ∧
      ((blinkStep defaultConfig (blinkRun defaultConfig initBlink [(1/5, 1)])
          (3/10) (6/5)).blink_count =
        (blinkRun defaultConfig initBlink [(1/5, 1)]).blink_count + 1 ↔
        defaultConfig.minCloseDuration ≤ 6/5 - t0) ∧
      (6/5 - t0 < defaultConfig.minCloseDuration →
        (blinkStep defaultConfig (blinkRun defaultConfig initBlink [(1/5, 1)])
          (3/10) (6/5)).blink_count =
        (blinkRun defaultConfig initBlink [(1/5, 1)]).blink_count) ∧
      (defaultConfig.minCloseDuration = 0 → t0 ≤ 6/5 →
        (blinkStep defaultConfig (blinkRun defaultConfig initBlink [(1/5, 1)])
          (3/10) (6/5)).blink_count =
        (blinkRun defaultConfig initBlink [(1/5, 1)]).blink_count + 1) :=
  closed_open_increment defaultConfig (blinkRun defaultConfig initBlink [(1/5, 1)])
    (3/10) (6/5) ⟨[(1/5, 1)], rfl⟩ (by with_unfolding_all decide)
    (by with_unfolding_all decide)

/-! ## C5 -/

/-- Folding deque pushes over a sample list from any buffer within
capacity keeps exactly the last `W` entries of buffer-then-samples. -/
lemma foldl_dequePush (W : ℕ) :
    ∀ (as : List ℚ) (buf : List ℚ), buf.length ≤ W →
      as.foldl (dequePush W) buf = (buf ++ as).drop ((buf ++ as).length - W)
  | [], buf, h => by
    rw [List.foldl_nil, List.append_nil, Nat.sub_eq_zero_of_le h, List.drop_zero]
  | a :: as, buf, h => by
    have hde : dequePush W buf a = (buf ++ [a]).drop (buf.length + 1 - W) := by
      simp [dequePush]
    have hlen : (dequePush W buf a).length ≤ W := by
      rw [hde, List.length_drop, List.length_append, List.length_singleton]
      omega
    rw [List.foldl_cons, foldl_dequePush W as (dequePush W buf a) hlen, hde]
    have hk : buf.length + 1 - W ≤ (buf ++ [a]).length := by
      rw [List.length_append, List.length_singleton]
      omega
    rw [← List.drop_append_of_le_length hk, List.drop_drop]
    have hshape : (buf ++ [a]) ++ as = buf ++ a :: as := by
      rw [List.append_assoc, List.singleton_append]
    rw [hshape]
    congr 1
    simp only [List.length_drop, List.length_append, List.length_singleton,
      List.length_cons]
    omega

/-- The buffer left after inserting a whole sample list into an empty
filter holds exactly the last `W` samples. -/
lemma insertAll_eq_drop (W : ℕ) (as : List ℚ) :
    insertAll W as = as.drop (as.length - W) := by
  have h := foldl_dequePush W as [] (by simp)
  simpa [insertAll] using h

/-- C5: after inserting k ≤ W samples the filter holds exactly those k
samples and its output is their arithmetic mean (the mean of what is
present, never of a padded set); after more than W samples it holds and
averages exactly the last W, the oldest evicted first; the default
capacity is 5. -/
theorem smoothing_mean (W : ℕ) (as : List ℚ) :
    insertAll W as = as.drop (as.length - W) ∧
    (as.length ≤ W →
      bufferMean (insertAll W as) = as.sum / (as.length : ℚ)) ∧
    (W < as.length →
      bufferMean (insertAll W as) = (as.drop (as.length - W)).sum / (W : ℚ)) ∧
    defaultConfig.smoothingWindow = 5 := by
  refine ⟨insertAll_eq_drop W as, ?_, ?_, rfl⟩
  · intro h
    rw [insertAll_eq_drop, Nat.sub_eq_zero_of_le h, List.drop_zero]
    rfl
  · intro h
    rw [insertAll_eq_drop]
    unfold bufferMean
    rw [List.length_drop, Nat.sub_sub_self h.le]

/-- C5 witness: three samples into the (default-capacity) filter average
all three; six samples average only the last five. -/
theorem smoothing_mean_witness :
    bufferMean (insertAll 5 [1, 2, 3]) = ((1 : ℚ) + 2 + 3) / 3 ∧
    bufferMean (insertAll 5 [1, 2, 3, 4, 5, 6]) = ((2 : ℚ) + 3 + 4 + 5 + 6) / 5 := by
  constructor
  · rw [(smoothing_mean 5 [1, 2, 3]).2.1 (by decide)]
    with_unfolding_all decide
  · rw [(smoothing_mean 5 [1, 2, 3, 4, 5, 6]).2.2.1 (by decide)]
    with_unfolding_all decide

/-! ## C6 -/

/-- C6: an iteration whose detector output is empty leaves the blink
state, close start time, blink count and smoothing buffer untouched (the
whole mutable state is held, not reset), still samples the action, and
still appends exactly one log record carrying the held count. -/
theorem no_face_holds (cfg : Config) (fs : FrameState) (inp : KbInput)
    (h : inp.faces = []) :
    (frameIterKb cfg fs inp).1 = fs ∧
    (frameIterKb cfg fs inp).2 =
      { timestamp := inp.timestamp, coords := inp.coords,
        action := sampleActionKb inp.lbutton inp.rbutton inp.keyDown,
        blink_count := fs.blink.blink_count } ∧
    (∀ rest : List KbInput, (runKb cfg fs (inp :: rest)).2 =
      (frameIterKb cfg fs inp).2 :: (runKb cfg fs rest).2) := by
  have h1 : (frameIterKb cfg fs inp).1 = fs := by
    simp [frameIterKb, h]
  refine ⟨h1, by simp [frameIterKb, h], ?_⟩
  intro rest
  simp only [runKb]
  rw [h1]

/-- C6 witness: a concrete no-face iteration from the initial state holds
the state and emits the record with the sampled action and count 0. -/
theorem no_face_holds_witness :
    (frameIterKb defaultConfig initFrame
        { faces := [], timestamp := "12:00", coords := (3, 4),
          lbutton := false, rbutton := false, keyDown := fun _ => false }).1 =
      initFrame ∧
    (frameIterKb defaultConfig initFrame
        { faces := [], timestamp := "12:00", coords := (3, 4),
          lbutton := false, rbutton := false, keyDown := fun _ => false }).2 =
      { timestamp := "12:00", coords := (3, 4),
        action := sampleActionKb false false (fun _ => false),
        blink_count := 0 } := by
  have h := no_face_holds defaultConfig initFrame
    { faces := [], timestamp := "12:00", coords := (3, 4),
      lbutton := false, rbutton := false, keyDown := fun _ => false } rfl
  exact ⟨h.1, h.2.1⟩

/-! ## C7 -/

/-- The per-face fold never decreases the blink count. -/
lemma foldl_faces_count_le (cfg : Config) :
    ∀ (faces : List (ℚ × ℚ)) (fs : FrameState),
      fs.blink.blink_count ≤
        (faces.foldl (fun s p => faceStep cfg s p.1 p.2) fs).blink.blink_count
  | [], _ => le_refl _
  | f :: faces, fs =>
    le_trans
      (blinkStep_count_le cfg fs.blink
        (bufferMean (dequePush cfg.smoothingWindow fs.ear_buffer f.1)) f.2)
      (foldl_faces_count_le cfg faces (faceStep cfg fs f.1 f.2))

/-- The per-face fold raises the blink count by at most the number of
faces processed. -/
lemma foldl_faces_count_le_add (cfg : Config) :
    ∀ (faces : List (ℚ × ℚ)) (fs : FrameState),
      (faces.foldl (fun s p => faceStep cfg s p.1 p.2) fs).blink.blink_count ≤
        fs.blink.blink_count + faces.length
  | [], _ => by simp
  | f :: faces, fs => by
    have h1 : (faceStep cfg fs f.1 f.2).blink.blink_count ≤
        fs.blink.blink_count + 1 :=
      blinkStep_count_le_succ cfg fs.blink
        (bufferMean (dequePush cfg.smoothingWindow fs.ear_buffer f.1)) f.2
    have h2 := foldl_faces_count_le_add cfg faces (faceStep cfg fs f.1 f.2)
    simp only [List.foldl_cons, List.length_cons]
    omega

/-- Along a run, the blink count of the starting state and then of every
successive log record is non-decreasing. -/
lemma runKb_counts_chain (cfg : Config) :
    ∀ (inps : List KbInput) (fs : FrameState),
      List.Chain (fun a b : ℕ => a ≤ b) fs.blink.blink_count
        ((runKb cfg fs inps).2.map KbRecord.blink_count)
  | [], _ => List.Chain.nil
  | inp :: rest, fs =>
    List.Chain.cons (foldl_faces_count_le cfg inp.faces fs)
      (runKb_counts_chain cfg rest (frameIterKb cfg fs inp).1)

/-- The final state of a run carries at least the starting count. -/
lemma runKb_count_le (cfg : Config) :
    ∀ (inps : List KbInput) (fs : FrameState),
      fs.blink.blink_count ≤ (runKb cfg fs inps).1.blink.blink_count
  | [], _ => le_refl _
  | inp :: rest, fs =>
    le_trans (foldl_faces_count_le cfg inp.faces fs)
      (runKb_count_le cfg rest (frameIterKb cfg fs inp).1)

/-- C7: the blink count starts at 0, never decreases across any single
iteration or any whole run (face or no face), and the counts snapshotted
into the successive log records are monotonically non-decreasing — the
count is never reset. -/
theorem blink_count_monotone (cfg : Config) (fs : FrameState)
    (inp : KbInput) (inps : List KbInput) :
    initFrame.blink.blink_count = 0 ∧
    fs.blink.blink_count ≤ (frameIterKb cfg fs inp).1.blink.blink_count ∧
    fs.blink.blink_count ≤ (runKb cfg fs inps).1.blink.blink_count ∧
    List.Chain (fun a b : ℕ => a ≤ b) fs.blink.blink_count
      ((runKb cfg fs inps).2.map KbRecord.blink_count) :=
  ⟨rfl, foldl_faces_count_le cfg inp.faces fs, runKb_count_le cfg inps fs,
    runKb_counts_chain cfg inps fs⟩

/-! ## C10 -/

/-- In a run whose every iteration carries at most one face, successive
log-record counts grow by at most one. -/
lemma runKb_counts_chain_one (cfg : Config) :
    ∀ (inps : List KbInput) (fs : FrameState),
      (∀ i ∈ inps, i.faces.length ≤ 1) →
      List.Chain (fun a b : ℕ => b ≤ a + 1) fs.blink.blink_count
        ((runKb cfg fs inps).2.map KbRecord.blink_count)
  | [], _, _ => List.Chain.nil
  | inp :: rest, fs, h => by
    have h0 : (frameIterKb cfg fs inp).1.blink.blink_count =
        (inp.faces.foldl (fun s p => faceStep cfg s p.1 p.2) fs).blink.blink_count :=
      rfl
    have h1 := foldl_faces_count_le_add cfg inp.faces fs
    have h2 := h inp (List.mem_cons_self inp rest)
    have h3 : (frameIterKb cfg fs inp).1.blink.blink_count ≤
        fs.blink.blink_count + 1 := by omega
    exact List.Chain.cons h3
      (runKb_counts_chain_one cfg rest (frameIterKb cfg fs inp).1
        (fun i hi => h i (List.mem_cons_of_mem inp hi)))

/-- C10: one blink update raises the count by at most 1, and a change can
happen only in the closed-to-open branch (then by exactly 1); one
iteration with F faces raises the count by at most F; in a run whose
iterations each carry at most one face, consecutive log records differ by
at most 1. -/
theorem count_increment_bound (cfg : Config) (st : BlinkSt) (s now : ℚ)
    (fs : FrameState) (inp : KbInput) (fs0 : FrameState) (inps : List KbInput)
    (hone : ∀ i ∈ inps, i.faces.length ≤ 1) :
    (blinkStep cfg st s now).blink_count ≤ st.blink_count + 1 ∧
    ((blinkStep cfg st s now).blink_count ≠ st.blink_count →
      st.blink_state = 1 ∧ cfg.earThreshold < s ∧
        (blinkStep cfg st s now).blink_state = 0 ∧
        (blinkStep cfg st s now).blink_count = st.blink_count + 1) ∧
    (frameIterKb cfg fs inp).1.blink.blink_count ≤
      fs.blink.blink_count + inp.faces.length ∧
    List.Chain (fun a b : ℕ => b ≤ a + 1) fs0.blink.blink_count
      ((runKb cfg fs0 inps).2.map KbRecord.blink_count) :=
  ⟨blinkStep_count_le_succ cfg st s now,
   blinkStep_count_change cfg st s now,
   foldl_faces_count_le_add cfg inp.faces fs,
   runKb_counts_chain_one cfg inps fs0 hone⟩

/-- C10 witness: over a concrete two-iteration single-face run (a dip at
time 1, a rise at time 2) the record counts form a chain growing by at
most one per record, and one concrete blink update stays within one
increment. -/
theorem count_increment_bound_witness :
    List.Chain (fun a b : ℕ => b ≤ a + 1) initFrame.blink.blink_count
      ((runKb defaultConfig initFrame
        [{ faces := [(1/5, 1)], timestamp := "t1", coords := (0, 0),
           lbutton := false, rbutton := false, keyDown := fun _ => false },
         { faces := [(3/10, 2)], timestamp := "t2", coords := (0, 0),
           lbutton := false, rbutton := false, keyDown := fun _ => false }]).2.map
        KbRecord.blink_count) ∧
    (blinkStep defaultConfig initBlink 0 0).blink_count ≤ initBlink.blink_count + 1 := by
  have h := count_increment_bound defaultConfig initBlink 0 0 initFrame
    { faces := [], timestamp := "", coords := (0, 0),
      lbutton := false, rbutton := false, keyDown := fun _ => false }
    initFrame
    [{ faces := [(1/5, 1)], timestamp := "t1", coords := (0, 0),
       lbutton := false, rbutton := false, keyDown := fun _ => false },
     { faces := [(3/10, 2)], timestamp := "t2", coords := (0, 0),
       lbutton := false, rbutton := false, keyDown := fun _ => false }]
    (by decide)
  exact ⟨h.2.2.2, h.1⟩

/-! ## C8 -/

/-- C8: the gamepad log line renders the four stick-axis components to
exactly two decimal places inside the documented line shape; with axes
(0.123, -0.456) and (0.0, 1.0), action "A" and blink count 3, the line is
exactly the timestamp followed by " - (0.12, -0.46) - (0.00, 1.00) - A -
3" and a newline. -/
theorem gamepad_log_format (ts : String) :
    format2 (123/1000) = "0.12" ∧
    format2 (-456/1000) = "-0.46" ∧
    format2 0 = "0.00" ∧
    format2 1 = "1.00" ∧
    logLineXbox ts (123/1000) (-456/1000) 0 1 "A" 3 =
      ts ++ " - (0.12, -0.46) - (0.00, 1.00) - A - 3\n" := by
  have h12 : format2 (123/1000) = "0.12" := by with_unfolding_all decide
  have h46 : format2 (-456/1000) = "-0.46" := by with_unfolding_all decide
  have h00 : format2 0 = "0.00" := by with_unfolding_all decide
  have h100 : format2 1 = "1.00" := by with_unfolding_all decide
  refine ⟨h12, h46, h00, h100, ?_⟩
  rw [logLineXbox, h12, h46, h00, h100]
  simp only [String.append_assoc]
  congr 1

/-! ## C9 -/

/-- C9: with zero gamepads connected at startup the gamepad variant
reports the initialization failure and returns before the loop: no log
line is produced and nothing is retried; only a nonzero device count
makes the frame loop run. -/
theorem no_gamepad_no_loop (cfg : Config) (frames : List XboxInput) (n : ℕ) :
    track_actions_xbox cfg 0 frames = XboxRun.initFailure ∧
    xboxRecords (track_actions_xbox cfg 0 frames) = [] ∧
    (n ≠ 0 → track_actions_xbox cfg n frames =
      XboxRun.completed (runXbox cfg initFrame frames).2) := by
  refine ⟨rfl, rfl, ?_⟩
  intro hn
  simp [track_actions_xbox, hn]

/-- C9 witness: zero devices give the failure outcome with no records;
one device starts the (here empty) loop. -/
theorem no_gamepad_no_loop_witness :
    track_actions_xbox defaultConfig 0 [] = XboxRun.initFailure ∧
    track_actions_xbox defaultConfig 1 [] = XboxRun.completed [] := by
  refine ⟨(no_gamepad_no_loop defaultConfig [] 1).1, ?_⟩
  have h := (no_gamepad_no_loop defaultConfig [] 1).2.2 (by decide)
  simpa [runXbox] using h

/-! ## C2 -/

/-- C2 amended: with non-degenerate geometry (`dist(p0, p3) ≠ 0`, i.e.
nonzero squared distance) `calculate_ear` returns a finite non-negative
value; with degenerate geometry nothing is detected and nothing is
skipped: the numpy float division yields +infinity (NaN when the two
numerator distances are also zero), and the non-finite sample is still
produced and averaged into the per-face ratio — never a finite value,
never an absence — with execution continuing. -/
theorem ear_nondegenerate (eye : Eye) :
    (sqdist eye.p0 eye.p3 ≠ 0 →
      ∃ r : ℝ, calculate_ear eye = FVal.fin r ∧ 0 ≤ r) ∧
    (sqdist eye.p0 eye.p3 = 0 →
      (calculate_ear eye = FVal.inf ∨ calculate_ear eye = FVal.nan) ∧
      ∀ right_eye : Eye, face_avg_ear eye right_eye = FVal.inf ∨
        face_avg_ear eye right_eye = FVal.nan) := by
  constructor
  · intro h
    refine ⟨(euclidean eye.p1 eye.p5 + euclidean eye.p2 eye.p4) /
        (2 * euclidean eye.p0 eye.p3), ?_, ?_⟩
    · unfold calculate_ear
      rw [if_neg h]
    · have hA : (0 : ℝ) ≤ euclidean eye.p1 eye.p5 := Real.sqrt_nonneg _
      have hB : (0 : ℝ) ≤ euclidean eye.p2 eye.p4 := Real.sqrt_nonneg _
      have hC : (0 : ℝ) ≤ euclidean eye.p0 eye.p3 := Real.sqrt_nonneg _
      exact div_nonneg (add_nonneg hA hB) (mul_nonneg (by norm_num) hC)
  · intro h
    have hce : calculate_ear eye = FVal.inf ∨ calculate_ear eye = FVal.nan := by
      unfold calculate_ear
      rw [if_pos h]
      split_ifs with h2
      · exact Or.inr rfl
      · exact Or.inl rfl
    refine ⟨hce, ?_⟩
    intro right_eye
    unfold face_avg_ear
    rcases hce with hce | hce <;> rw [hce] <;>
      cases calculate_ear right_eye <;> simp [fvalAvg]

/-- C2 counterexample: at a concrete degenerate left eye (p0 = p3 =
(0,0)) the EAR division produces exactly the infinity the claim rules
out, and the per-face sample is not skipped: the infinite value is
averaged into the per-face ratio and flows on, nothing having detected
the degenerate geometry. -/
theorem ear_degenerate_counterexample :
    calculate_ear
        { p0 := (0, 0), p1 := (0, 1), p2 := (1, 1), p3 := (0, 0),
          p4 := (1, 0), p5 := (0, 2) } = FVal.inf ∧
    face_avg_ear
        { p0 := (0, 0), p1 := (0, 1), p2 := (1, 1), p3 := (0, 0),
          p4 := (1, 0), p5 := (0, 2) }
        { p0 := (0, 0), p1 := (0, 1), p2 := (1, 1), p3 := (3, 0),
          p4 := (1, 0), p5 := (0, 2) } = FVal.inf := by
  constructor
  · with_unfolding_all rfl
  · with_unfolding_all rfl

/-- C2 witness: a concrete non-degenerate eye (horizontal span 4) has a
finite, non-negative ratio. -/
theorem ear_nondegenerate_witness :
    sqdist ((0 : ℚ), (0 : ℚ)) ((4 : ℚ), (0 : ℚ)) ≠ 0 ∧
    ∃ r : ℝ, calculate_ear
        { p0 := (0, 0), p1 := (0, 3), p2 := (0, 1), p3 := (4, 0),
          p4 := (0, 1), p5 := (0, 0) } = FVal.fin r ∧ 0 ≤ r :=
  ⟨by with_unfolding_all decide,
    (ear_nondegenerate
      { p0 := (0, 0), p1 := (0, 3), p2 := (0, 1), p3 := (4, 0),
        p4 := (0, 1), p5 := (0, 0) }).1 (by with_unfolding_all decide)⟩

end Trackers
